import Mathlib

/-!
Shallow embedding of the wifi scanner program (`Senior_Project/newWifiScanner/main.py`)
and verification of its specification claims.

The embedding models Python strings as Lean `String`s and Python's string
primitives (`strip`, `index`, slicing, `int()` conversion, `split`) as
executable Lean functions with Python's semantics.  Fallible Python code
(statements that may raise an exception that escapes the function) is
modelled with `Except`; an exception caught inside the function is modelled
locally with `Option`.
-/

namespace PyStr

/-- Python `str.isspace` character class: ASCII whitespace, the ASCII
separator controls 0x1c-0x1f, NEL (0x85) and the Unicode space characters.
Used by `str.strip()` with no arguments. -/
def isSpace (c : Char) : Bool :=
  let n := c.toNat
  (9 ≤ n && n ≤ 13) || (28 ≤ n && n ≤ 31) || n == 32 || n == 133 || n == 160 ||
    n == 5760 || (8192 ≤ n && n ≤ 8202) || n == 8232 || n == 8233 || n == 8239 ||
    n == 8287 || n == 12288

/-- Python `str.strip()` on a character list: drop whitespace from both ends. -/
def stripList (l : List Char) : List Char :=
  ((l.dropWhile isSpace).reverse.dropWhile isSpace).reverse

/-- Python `str.strip()`. -/
def strip (s : String) : String :=
  ⟨stripList s.toList⟩

/-- Python `str.startswith(pre)`. -/
def startsWith (s pre : String) : Bool :=
  pre.toList.isPrefixOf s.toList

/-- Helper for `find?`: first index `≥ i` at which `pat` occurs in the list. -/
def findAux (pat : List Char) : List Char → Nat → Option Nat
  | [], i => if pat.isPrefixOf [] then some i else none
  | c :: t, i => if pat.isPrefixOf (c :: t) then some i else findAux pat t (i + 1)

/-- Python `str.index(pat)` / `str.find(pat)`: index of the first occurrence
of the substring `pat`, or `none` (Python: `index` raises `ValueError`). -/
def find? (s pat : String) : Option Nat :=
  findAux pat.toList s.toList 0

/-- Python `pat in s`: substring containment. -/
def containsSub (s pat : String) : Bool :=
  (find? s pat).isSome

/-- Normalise one Python slice endpoint for a string of length `n`:
negative indices count from the end, and both ends are clamped to `[0, n]`. -/
def sliceIdx (n : Nat) (i : Int) : Nat :=
  if i < 0 then ((n : Int) + i).toNat else min i.toNat n

/-- Python slice `s[a:b]` (step 1), with Python's clamping and
negative-index semantics; never fails. -/
def slice (s : String) (a b : Int) : String :=
  let l := s.toList
  let lo := sliceIdx l.length a
  let hi := sliceIdx l.length b
  ⟨(l.drop lo).take (hi - lo)⟩

/-- Python slice `s[a:]` (to end of string). -/
def sliceFrom (s : String) (a : Int) : String :=
  ⟨s.toList.drop (sliceIdx s.toList.length a)⟩

/-- ASCII decimal digit test (Python `int()` is modelled on ASCII digits). -/
def isDigit (c : Char) : Bool :=
  '0' ≤ c && c ≤ '9'

/-- Numeric value of an ASCII digit. -/
def digitVal (c : Char) : Nat :=
  c.toNat - 48

/-- Digits of a Python integer literal after the first digit: decimal digits
with single underscores allowed only between digits. -/
def digitsCore : List Char → Nat → Option Nat
  | [], acc => some acc
  | c :: t, acc =>
    if isDigit c then digitsCore t (acc * 10 + digitVal c)
    else if c = '_' then
      match t with
      | [] => none
      | d :: _ => if isDigit d then digitsCore t acc else none
    else none

/-- Digit run of a Python integer literal: nonempty, starts with a digit. -/
def digits? : List Char → Option Nat
  | [] => none
  | c :: t => if isDigit c then digitsCore t (digitVal c) else none

/-- Python `int(s)` for base 10: strips surrounding whitespace, allows one
optional sign, then a digit run with underscores between digits; `none`
models the `ValueError` raised on any other shape. -/
def toInt? (s : String) : Option Int :=
  match stripList s.toList with
  | '+' :: t => (digits? t).map (fun n => (n : Int))
  | '-' :: t => (digits? t).map (fun n => -(n : Int))
  | l => (digits? l).map (fun n => (n : Int))

/-- Core of Python `s.split("\n")` on a character list: always returns at
least one (possibly empty) piece, one more piece per newline. -/
def splitNlList : List Char → List (List Char)
  | [] => [[]]
  | c :: t =>
    let r := splitNlList t
    if c = '\n' then [] :: r
    else
      match r with
      | [] => [[c]]
      | h :: rest => (c :: h) :: rest

/-- Python `s.split("\n")` (in particular `"".split("\n") == [""]`). -/
def splitNl (s : String) : List String :=
  (splitNlList s.toList).map (fun l => ⟨l⟩)

end PyStr

namespace WifiScan

/-- Python exceptions the embedding distinguishes.  `valueError` covers
`str.index` misses and failed `int()` conversions; `unsupportedPlatformError`
is the error type the specification names for an unregistered platform. -/
inductive PyExc : Type
  | valueError : PyExc
  | unsupportedPlatformError : PyExc
  deriving DecidableEq

instance {ε α : Type} [DecidableEq ε] [DecidableEq α] : DecidableEq (Except ε α) :=
  fun x y =>
    match x, y with
    | .error a, .error b =>
      if h : a = b then isTrue (by rw [h]) else isFalse (by simp [h])
    | .ok a, .ok b =>
      if h : a = b then isTrue (by rw [h]) else isFalse (by simp [h])
    | .error _, .ok _ => isFalse (by simp)
    | .ok _, .error _ => isFalse (by simp)

/-- The `AccessPoint` record built by `parse_output` (`main.py` line 50):
a network name, hardware address, normalised quality and security string. -/
structure AccessPoint : Type where
  ssid : String
  bssid : String
  quality : Int
  security : String
  deriving DecidableEq

/-- Embedding of `rssi_to_quality` (`main.py` lines 24-26): converts RSSI to a 0-150
scale; a plain linear map with no clamping and no failure mode. -/
def rssi_to_quality (rssi : Int) : Int :=
  2 * (rssi + 100)

/-- State threaded through `OSXWifiScanner.parse_output`'s line loop:
the records built so far and the three column boundaries.  In Python
`security_start_index` is initialised to `False` and replaced by an `int`
at each header line; its truthiness guards the data-line branch, so it is
modelled as `Option Nat` (with the value `0` also falsy, as in Python).
`ssid_end_index` and `rssi_start_index` are unassigned before the first
header line but are only ever read under that guard, so they carry a
default of `0` here. -/
structure ParseState : Type where
  results : List AccessPoint
  securityStartIndex : Option Nat
  ssidEndIndex : Nat
  rssiStartIndex : Nat
  deriving DecidableEq

/-- Loop state at entry of `parse_output`: no results, no boundaries. -/
def initState : ParseState :=
  ⟨[], none, 0, 0⟩

/-- Header-line test (`main.py` line 114):
`line.strip().startswith("SSID BSSID")`. -/
def isHeaderLine (line : String) : Bool :=
  PyStr.startsWith (PyStr.strip line) "SSID BSSID"

/-- Python truthiness of `security_start_index`: `False` (here `none`) and
the integer `0` are falsy. -/
def secTruthy : Option Nat → Bool
  | none => false
  | some v => v != 0

/-- Body of the `try` block for one data line (`main.py` lines 120-125).
The slices cannot fail (Python slicing clamps); only `int(rssi)` can raise,
which the surrounding `except` catches, so the whole block is an `Option`:
`none` means the line is skipped. -/
def parseDataLine (line : String) (sec ssidEnd rssiStart : Nat) : Option AccessPoint :=
  let ssid := PyStr.strip (PyStr.slice line 0 (ssidEnd : Int))
  let bssid := PyStr.strip (PyStr.slice line ((ssidEnd : Int) + 1) ((rssiStart : Int) - 1))
  let rssiStr := PyStr.strip (PyStr.slice line (rssiStart : Int) ((rssiStart : Int) + 4))
  let security := PyStr.sliceFrom line (sec : Int)
  match PyStr.toInt? rssiStr with
  | none => none
  | some r => some ⟨ssid, bssid, rssi_to_quality r, security⟩

/-- One iteration of `parse_output`'s loop (`main.py` lines 113-133) on one
line.  A header line recomputes the three boundaries via `str.index`, whose
misses raise `ValueError` uncaught (the `try` only wraps the data branch);
the Python code computes `security_start_index`, then `ssid_end_index`,
then `rssi_start_index`, in that order.  A non-header line is parsed as a
data line when it is nonempty, boundaries are set (truthy) and it does not
contain `"IBSS"`; otherwise it is ignored. -/
def parseStep (st : ParseState) (line : String) : Except PyExc ParseState :=
  if isHeaderLine line then
    match PyStr.find? line "SECURITY" with
    | none => .error .valueError
    | some sec =>
      match PyStr.find? line "SSID" with
      | none => .error .valueError
      | some ssidIdx =>
        match PyStr.find? line "RSSI" with
        | none => .error .valueError
        | some rssiIdx => .ok ⟨st.results, some sec, ssidIdx + 4, rssiIdx⟩
  else
    match st.securityStartIndex with
    | none => .ok st
    | some sec =>
      if (line != "") && (sec != 0) && !(PyStr.containsSub line "IBSS") then
        match parseDataLine line sec st.ssidEndIndex st.rssiStartIndex with
        | none => .ok st
        | some ap =>
          .ok ⟨st.results ++ [ap], st.securityStartIndex, st.ssidEndIndex, st.rssiStartIndex⟩
      else .ok st

/-- Embedding of `OSXWifiScanner.parse_output` (`main.py` lines 105-134): fold the loop
body over the `"\n"`-split lines and return the accumulated records. -/
def parse_output (output : String) : Except PyExc (List AccessPoint) :=
  Except.map ParseState.results ((PyStr.splitNl output).foldlM parseStep initState)

/-- Composite key used by `aps_to_dict` (`main.py` line 137):
`ap['ssid'] + " " + ap['bssid']`. -/
def apKey (ap : AccessPoint) : String :=
  ap.ssid ++ " " ++ ap.bssid

/-- Python `dict` insertion on an insertion-ordered association list:
an existing key keeps its position and gets the new value, a new key is
appended. -/
def dictInsert (d : List (String × Int)) (k : String) (v : Int) : List (String × Int) :=
  if d.any (fun p => p.1 == k) then
    d.map (fun p => if p.1 == k then (k, v) else p)
  else d ++ [(k, v)]

/-- Embedding of `aps_to_dict` (`main.py` lines 136-137): the dict
comprehension mapping each access point to key ssid-space-bssid with its
quality as value, evaluated left to right. -/
def aps_to_dict (aps : List AccessPoint) : List (String × Int) :=
  aps.foldl (fun d ap => dictInsert d (apKey ap) ap.quality) []

/-- Python `d[k]` / `d.get(k)` on the association-list dict model. -/
def dictFind (d : List (String × Int)) (k : String) : Option Int :=
  (d.find? (fun p => p.1 == k)).map Prod.snd

/-- The scanner object built by `OSXWifiScanner(device)`: construction only
stores the device and the command string from `get_cmd` (`main.py`
lines 95-99); no command is executed. -/
structure OSXWifiScanner : Type where
  device : String
  cmd : String
  deriving DecidableEq

/-- Command string built by `OSXWifiScanner.get_cmd` (`main.py` lines 95-99). -/
def osxScanCmd : String :=
  "sudo /System/Library/PrivateFrameworks/Apple80211.framework/Versions/Current/Resources/" ++
    "airport -s"

/-- Embedding of `get_scanner` (`main.py` lines 139-143) as a function of the platform
string: returns a scanner for `"Darwin"` and falls off the end of the
function (Python: returns `None`) for every other identifier — it raises
nothing, so the result is always `.ok`. -/
def get_scanner (operating_system device : String) : Except PyExc (Option OSXWifiScanner) :=
  .ok (if operating_system == "Darwin" then some ⟨device, osxScanCmd⟩ else none)

/-- UTF-8 continuation byte test (0x80-0xBF). -/
def isCont (b : Nat) : Bool :=
  128 ≤ b && b ≤ 191

/-- One step of CPython's UTF-8 decoder with `errors='ignore'`: given the
first byte and the remaining bytes, return the decoded character (or `none`
for an ill-formed sequence, which the `ignore` handler drops) and the bytes
not yet consumed.  Ill-formed input skips the maximal subpart of a valid
sequence, as CPython does.  The second-byte ranges exclude overlong
encodings (0xE0, 0xF0), surrogates (0xED) and values above U+10FFFF (0xF4). -/
def utf8Step (b : Nat) (rest : List Nat) : Option Char × List Nat :=
  if b < 128 then (some (Char.ofNat b), rest)
  else if 194 ≤ b && b ≤ 223 then
    match rest with
    | [] => (none, [])
    | b2 :: r2 =>
      if isCont b2 then (some (Char.ofNat ((b - 192) * 64 + (b2 - 128))), r2)
      else (none, rest)
  else if 224 ≤ b && b ≤ 239 then
    let lo2 := if b = 224 then 160 else 128
    let hi2 := if b = 237 then 159 else 191
    match rest with
    | [] => (none, [])
    | b2 :: r2 =>
      if lo2 ≤ b2 && b2 ≤ hi2 then
        match r2 with
        | [] => (none, [])
        | b3 :: r3 =>
          if isCont b3 then
            (some (Char.ofNat ((b - 224) * 4096 + (b2 - 128) * 64 + (b3 - 128))), r3)
          else (none, r2)
      else (none, rest)
  else if 240 ≤ b && b ≤ 244 then
    let lo2 := if b = 240 then 144 else 128
    let hi2 := if b = 244 then 143 else 191
    match rest with
    | [] => (none, [])
    | b2 :: r2 =>
      if lo2 ≤ b2 && b2 ≤ hi2 then
        match r2 with
        | [] => (none, [])
        | b3 :: r3 =>
          if isCont b3 then
            match r3 with
            | [] => (none, [])
            | b4 :: r4 =>
              if isCont b4 then
                (some (Char.ofNat
                  ((b - 240) * 262144 + (b2 - 128) * 4096 + (b3 - 128) * 64 + (b4 - 128))), r4)
              else (none, r3)
          else (none, r2)
      else (none, rest)
  else (none, rest)

/-- Run the UTF-8 decoder to completion; the fuel is the byte count, which
suffices because every step consumes at least the first byte. -/
def utf8DecodeAux : Nat → List Nat → List Char
  | 0, _ => []
  | _, [] => []
  | fuel + 1, b :: rest =>
    match utf8Step b rest with
    | (some c, r) => c :: utf8DecodeAux fuel r
    | (none, r) => utf8DecodeAux fuel r

/-- Python `bytes.decode("utf8", errors='ignore')`: total — the `ignore`
error handler drops every ill-formed sequence, so no `UnicodeDecodeError`
is ever raised. -/
def utf8DecodeIgnore (bs : List Nat) : String :=
  ⟨utf8DecodeAux bs.length bs⟩

/-- Embedding of `ensure_str` (`main.py` lines 14-21) applied to a byte sequence.  The
`try` block runs `output.decode("utf8", errors='ignore')`, which is total,
so the `except UnicodeDecodeError` fallback to UTF-16 and the
`except AttributeError` branch are unreachable for bytes input and the
function always returns the UTF-8 ignore-decoding. -/
def ensure_str (bs : List Nat) : Except PyExc String :=
  .ok (utf8DecodeIgnore bs)

/-- The header line of the specification's worked example. -/
def specHeader : String :=
  "        SSID BSSID             RSSI CHANNEL HT CC SECURITY (auth/unicast/group)"

/-- The data line of the specification's worked example, exactly as the
specification gives it. -/
def specDataLine : String :=
  "HomeNet         aa:bb:cc:dd:ee:ff -55   6       Y  US WPA2(PSK/AES/AES)"

/-- A data line whose columns actually align with `specHeader`'s boundaries
(RSSI field in columns 31-34, security text from column 50). -/
def alignedDataLine : String :=
  "HomeNet      aa:bb:cc:dd:ee:ff -55 6       Y  US  WPA2(PSK/AES/AES)"

/-- Scan text mixing a header, two well-formed data lines and one malformed
data line whose signal field is not an integer. -/
def mixedExample : String :=
  specHeader ++ "\n" ++ alignedDataLine ++ "\nBadNet       xx:yy bad rssi here\n" ++
    alignedDataLine

/-- Bridge between the executable prefix test on character lists and the
propositional prefix order. -/
theorem isPrefixOf_true_iff (l1 l2 : List Char) : l1.isPrefixOf l2 = true ↔ l1 <+: l2 := by
  induction l1 generalizing l2 with
  | nil =>
    constructor
    · intro _
      exact ⟨l2, rfl⟩
    · intro _
      cases l2 with
      | nil => rfl
      | cons b bs => rfl
  | cons a as ih =>
    cases l2 with
    | nil =>
      constructor
      · intro h
        exact Bool.noConfusion h
      · intro h
        obtain ⟨t, ht⟩ := h
        exact List.noConfusion ht
    | cons b bs =>
      rw [show (a :: as).isPrefixOf (b :: bs) = (a == b && as.isPrefixOf bs) from rfl,
        Bool.and_eq_true, beq_iff_eq, ih bs, List.cons_prefix_cons]

/-- If `pat` occurs somewhere in `l` then the substring search finds it,
whatever the running index. -/
theorem findAux_finds_occurrence (pat l : List Char) (h : pat <:+: l) :
    ∀ i : Nat, (PyStr.findAux pat l i).isSome := by
  induction l with
  | nil =>
    rw [List.infix_nil] at h
    subst h
    intro i
    simp [PyStr.findAux, List.isPrefixOf]
  | cons c t ih =>
    intro i
    by_cases hp : pat.isPrefixOf (c :: t) = true
    · simp [PyStr.findAux, hp]
    · have hp2 : pat.isPrefixOf (c :: t) = false := Bool.eq_false_iff.2 hp
      have ht : pat <:+: t := by
        rcases List.infix_cons_iff.1 h with hpre | hinf
        · exact absurd ((isPrefixOf_true_iff pat (c :: t)).2 hpre) hp
        · exact hinf
      simpa [PyStr.findAux, hp2] using ih ht (i + 1)

/-- Stripping whitespace from both ends leaves a contiguous piece of the
original character list. -/
theorem stripList_within (l : List Char) : PyStr.stripList l <:+: l := by
  have h1 : l.dropWhile PyStr.isSpace <:+ l := List.dropWhile_suffix _
  have h2 : (l.dropWhile PyStr.isSpace).reverse.dropWhile PyStr.isSpace <:+
      (l.dropWhile PyStr.isSpace).reverse := List.dropWhile_suffix _
  have h3 : ((l.dropWhile PyStr.isSpace).reverse.dropWhile PyStr.isSpace).reverse <+:
      l.dropWhile PyStr.isSpace := by
    rw [← List.reverse_suffix]
    simpa using h2
  exact (List.IsPrefix.isInfix h3).trans (List.IsSuffix.isInfix h1)

/-- A header line always contains the substring `"SSID"`, because its
stripped form starts with `"SSID BSSID"`; hence `line.index("SSID")` cannot
raise on a header line. -/
theorem header_ssid_found (line : String) (h : isHeaderLine line = true) :
    (PyStr.find? line "SSID").isSome := by
  unfold isHeaderLine PyStr.startsWith at h
  have hpre : "SSID BSSID".toList <+: (PyStr.strip line).toList :=
    (isPrefixOf_true_iff "SSID BSSID".toList (PyStr.strip line).toList).1 h
  have hs : "SSID".toList <+: "SSID BSSID".toList := by decide
  have hinf : "SSID".toList <:+: line.toList := by
    have hstrip : (PyStr.strip line).toList <:+: line.toList := by
      simpa [PyStr.strip] using stripList_within line.toList
    exact (List.IsPrefix.isInfix (hs.trans hpre)).trans hstrip
  exact findAux_finds_occurrence _ _ hinf 0

/-- Effect of the loop body on a header line whose three `str.index` calls
all succeed: the boundaries are recomputed from the first occurrences of
the tokens and no record is emitted. -/
theorem parseStep_header (st : ParseState) (line : String) (sec ssidIdx rssiIdx : Nat)
    (hH : isHeaderLine line = true)
    (h1 : PyStr.find? line "SECURITY" = some sec)
    (h2 : PyStr.find? line "SSID" = some ssidIdx)
    (h3 : PyStr.find? line "RSSI" = some rssiIdx) :
    parseStep st line = .ok ⟨st.results, some sec, ssidIdx + 4, rssiIdx⟩ := by
  simp [parseStep, hH, h1, h2, h3]

/-- Effect of the loop body on a non-header line: it never fails, never
touches the boundaries, and appends at most one record. -/
theorem parseStep_nonheader (st : ParseState) (line : String)
    (hH : isHeaderLine line = false) :
    ∃ added, parseStep st line =
        .ok ⟨st.results ++ added, st.securityStartIndex, st.ssidEndIndex, st.rssiStartIndex⟩ ∧
      added.length ≤ 1 := by
  obtain ⟨res, ssi, sei, rsi⟩ := st
  cases ssi with
  | none => exact ⟨[], by simp [parseStep, hH], by simp⟩
  | some sec =>
    by_cases hc : ((line != "") && (sec != 0) && !(PyStr.containsSub line "IBSS")) = true
    · cases hp : parseDataLine line sec sei rsi with
      | none => exact ⟨[], by simp [parseStep, hH, hc, hp], by simp⟩
      | some ap => exact ⟨[ap], by simp [parseStep, hH, hc, hp], by simp⟩
    · have hc2 : ((line != "") && (sec != 0) && !(PyStr.containsSub line "IBSS")) = false :=
        Bool.eq_false_iff.2 hc
      exact ⟨[], by simp [parseStep, hH, hc2], by simp⟩

/-- A non-header line seen while no boundaries are set is ignored entirely. -/
theorem parseStep_nonheader_none (st : ParseState) (line : String)
    (hH : isHeaderLine line = false) (hs : st.securityStartIndex = none) :
    parseStep st line = .ok st := by
  obtain ⟨res, ssi, sei, rsi⟩ := st
  cases hs
  simp [parseStep, hH]

/-- Folding the loop body over lines none of which is a header leaves a
boundary-free state untouched. -/
theorem fold_no_header (lines : List String) :
    ∀ st : ParseState, st.securityStartIndex = none →
      (∀ l ∈ lines, isHeaderLine l = false) →
      lines.foldlM parseStep st = .ok st := by
  induction lines with
  | nil => intro st _ _; rfl
  | cons a t ih =>
    intro st hs hall
    have ha : isHeaderLine a = false := hall a (List.mem_cons_self a t)
    have hstep : parseStep st a = .ok st := parseStep_nonheader_none st a ha hs
    rw [List.foldlM_cons, hstep]
    exact ih st hs (fun l hl => hall l (List.mem_cons_of_mem a hl))

/-- Folding the loop body never fails as long as every header-detected line
contains the `"SECURITY"` and `"RSSI"` tokens (the `"SSID"` token is there
automatically). -/
theorem fold_no_abort (lines : List String) :
    ∀ st : ParseState,
      (∀ l ∈ lines, isHeaderLine l = true →
        (PyStr.find? l "SECURITY").isSome ∧ (PyStr.find? l "RSSI").isSome) →
      ∃ st2, lines.foldlM parseStep st = .ok st2 := by
  induction lines with
  | nil => intro st _; exact ⟨st, rfl⟩
  | cons a t ih =>
    intro st hall
    have hstep : ∃ st1, parseStep st a = .ok st1 := by
      cases hH : isHeaderLine a with
      | false =>
        obtain ⟨added, heq, -⟩ := parseStep_nonheader st a hH
        exact ⟨_, heq⟩
      | true =>
        obtain ⟨hsec, hrssi⟩ := hall a (List.mem_cons_self a t) hH
        obtain ⟨sec, hsec⟩ := Option.isSome_iff_exists.1 hsec
        obtain ⟨rssiIdx, hrssi⟩ := Option.isSome_iff_exists.1 hrssi
        obtain ⟨ssidIdx, hssid⟩ := Option.isSome_iff_exists.1 (header_ssid_found a hH)
        exact ⟨_, parseStep_header st a sec ssidIdx rssiIdx hH hsec hssid hrssi⟩
    obtain ⟨st1, hstep⟩ := hstep
    obtain ⟨st2, h2⟩ := ih st1 (fun l hl hh => hall l (List.mem_cons_of_mem a hl) hh)
    refine ⟨st2, ?_⟩
    rw [List.foldlM_cons, hstep]
    exact h2

/-- Looking up the inserted key immediately after a value update (the key
was already present) returns the new value. -/
theorem find?_map_insert_self (k : String) (v : Int) (d : List (String × Int)) :
    List.find? (fun p => p.1 == k) (d.map (fun p => if p.1 == k then (k, v) else p)) =
      if d.any (fun p => p.1 == k) then some (k, v) else none := by
  induction d with
  | nil => rfl
  | cons p t ih =>
    cases hb : (p.1 == k) with
    | true =>
      rw [List.map_cons, if_pos hb]
      have hstep : List.find? (fun q => q.1 == k)
          ((k, v) :: t.map (fun q => if q.1 == k then (k, v) else q)) = some (k, v) :=
        List.find?_cons_of_pos _ (beq_self_eq_true k)
      rw [hstep, List.any_cons, hb, Bool.true_or, if_pos rfl]
    | false =>
      have hnb : ¬((p.1 == k) = true) := by rw [hb]; exact Bool.false_ne_true
      rw [List.map_cons, if_neg hnb]
      have hstep : List.find? (fun q => q.1 == k)
          (p :: t.map (fun q => if q.1 == k then (k, v) else q)) =
            List.find? (fun q => q.1 == k) (t.map (fun q => if q.1 == k then (k, v) else q)) :=
        List.find?_cons_of_neg _ hnb
      rw [hstep, ih, List.any_cons, hb, Bool.false_or]

/-- Looking up the inserted key after a `dict` insertion returns the new
value, whether the key was present before or not. -/
theorem dictFind_insert_self (d : List (String × Int)) (k : String) (v : Int) :
    dictFind (dictInsert d k v) k = some v := by
  unfold dictInsert dictFind
  by_cases h : d.any (fun p => p.1 == k) = true
  · rw [if_pos h, find?_map_insert_self, if_pos h]
    rfl
  · have h2 : d.any (fun p => p.1 == k) = false := Bool.eq_false_iff.2 h
    rw [if_neg h, List.find?_append]
    have hnone : List.find? (fun p => p.1 == k) d = none := by
      rw [List.find?_eq_none]
      intro p hp hcontra
      exact h (List.any_eq_true.2 ⟨p, hp, hcontra⟩)
    rw [hnone]
    simp

/-- Updating the value at key `k` does not change lookups at other keys. -/
theorem find?_map_insert_ne (k k2 : String) (v : Int) (h : k2 ≠ k)
    (d : List (String × Int)) :
    List.find? (fun p => p.1 == k2) (d.map (fun p => if p.1 == k then (k, v) else p)) =
      List.find? (fun p => p.1 == k2) d := by
  have hk2 : ((k : String) == k2) = false := beq_eq_false_iff_ne.2 (Ne.symm h)
  induction d with
  | nil => rfl
  | cons p t ih =>
    cases hb : (p.1 == k) with
    | true =>
      have hp : p.1 = k := beq_iff_eq.1 hb
      have hnk2 : ¬(((k, v).1 == k2) = true) := by
        show ¬((k == k2) = true)
        rw [hk2]
        exact Bool.false_ne_true
      have hpk2 : ¬((p.1 == k2) = true) := by rw [hp, hk2]; exact Bool.false_ne_true
      rw [List.map_cons, if_pos hb]
      have hstep : List.find? (fun q => q.1 == k2)
          ((k, v) :: t.map (fun q => if q.1 == k then (k, v) else q)) =
            List.find? (fun q => q.1 == k2) (t.map (fun q => if q.1 == k then (k, v) else q)) :=
        List.find?_cons_of_neg _ hnk2
      have hstep2 : List.find? (fun q => q.1 == k2) (p :: t) =
          List.find? (fun q => q.1 == k2) t :=
        List.find?_cons_of_neg _ hpk2
      rw [hstep, hstep2, ih]
    | false =>
      have hnb : ¬((p.1 == k) = true) := by rw [hb]; exact Bool.false_ne_true
      rw [List.map_cons, if_neg hnb]
      cases hq : (p.1 == k2) with
      | true =>
        have hstep : List.find? (fun q => q.1 == k2)
            (p :: t.map (fun q => if q.1 == k then (k, v) else q)) = some p :=
          List.find?_cons_of_pos _ hq
        have hstep2 : List.find? (fun q => q.1 == k2) (p :: t) = some p :=
          List.find?_cons_of_pos _ hq
        rw [hstep, hstep2]
      | false =>
        have hnq : ¬((p.1 == k2) = true) := by rw [hq]; exact Bool.false_ne_true
        have hstep : List.find? (fun q => q.1 == k2)
            (p :: t.map (fun q => if q.1 == k then (k, v) else q)) =
              List.find? (fun q => q.1 == k2) (t.map (fun q => if q.1 == k then (k, v) else q)) :=
          List.find?_cons_of_neg _ hnq
        have hstep2 : List.find? (fun q => q.1 == k2) (p :: t) =
            List.find? (fun q => q.1 == k2) t :=
          List.find?_cons_of_neg _ hnq
        rw [hstep, hstep2, ih]

/-- Inserting at key `k` does not change `dict` lookups at other keys. -/
theorem dictFind_insert_ne (d : List (String × Int)) (k : String) (v : Int)
    (k2 : String) (h : k2 ≠ k) :
    dictFind (dictInsert d k v) k2 = dictFind d k2 := by
  unfold dictInsert dictFind
  by_cases hA : d.any (fun p => p.1 == k) = true
  · rw [if_pos hA, find?_map_insert_ne k k2 v h]
  · rw [if_neg hA, List.find?_append]
    have hk2 : ((k : String) == k2) = false := beq_eq_false_iff_ne.2 (Ne.symm h)
    have hnk2 : ¬(((k, v).1 == k2) = true) := by
      show ¬((k == k2) = true)
      rw [hk2]
      exact Bool.false_ne_true
    have hone : List.find? (fun p => p.1 == k2) [(k, v)] = none :=
      @List.find?_cons_of_neg _ (fun p => p.1 == k2) (k, v) [] hnk2
    rw [hone, Option.or_none]

/-- Running the `aps_to_dict` comprehension left to right from any starting
dict, a lookup returns the quality of the latest record whose composite key
matches, falling back to the starting dict. -/
theorem foldl_dict_lookup (aps : List AccessPoint) :
    ∀ (d : List (String × Int)) (k : String),
      dictFind (aps.foldl (fun d2 ap => dictInsert d2 (apKey ap) ap.quality) d) k =
        ((aps.reverse.find? (fun ap => apKey ap == k)).map AccessPoint.quality).or
          (dictFind d k) := by
  induction aps with
  | nil => intro d k; simp
  | cons ap t ih =>
    intro d k
    rw [List.foldl_cons, ih (dictInsert d (apKey ap) ap.quality) k,
      List.reverse_cons, List.find?_append]
    cases hf : t.reverse.find? (fun a => apKey a == k) with
    | some a => simp
    | none =>
      by_cases hk : apKey ap = k
      · subst hk
        have hone : List.find? (fun a => apKey a == apKey ap) [ap] = some ap := by simp
        rw [hone]
        simp [dictFind_insert_self]
      · have hone : List.find? (fun a => apKey a == k) [ap] = none := by simp [hk]
        rw [hone]
        simp [dictFind_insert_ne d (apKey ap) ap.quality k (Ne.symm hk)]

/-- C1 (counterexample): on the specification's own two-line example the
parser produces ZERO records, not one.  The header puts the RSSI column at
index 31, but in the example data line the characters at indices 31-34 are
`"ff -"` (the tail of the MAC address), so `int()` fails and the whole line
is skipped. -/
theorem c1_counterexample :
    parse_output (specHeader ++ "\n" ++ specDataLine) = Except.ok [] ∧
      parse_output (specHeader ++ "\n" ++ specDataLine) ≠
        Except.ok [⟨"HomeNet", "aa:bb:cc:dd:ee:ff", 90, "WPA2(PSK/AES/AES)"⟩] := by
  constructor
  · decide
  · decide

/-- C1 (amended): with a data line whose columns are aligned to the header's
computed boundaries (RSSI field at indices 31-34, security text from
index 50), parsing the two-line input produces exactly one record with
identifier `"HomeNet"`, hardware address `"aa:bb:cc:dd:ee:ff"`, quality
`90` and security descriptor `"WPA2(PSK/AES/AES)"`; the specification's
unaligned data line is skipped and yields zero records. -/
theorem c1_amended :
    parse_output (specHeader ++ "\n" ++ alignedDataLine) =
      Except.ok [⟨"HomeNet", "aa:bb:cc:dd:ee:ff", 90, "WPA2(PSK/AES/AES)"⟩] := by
  decide

/-- C2: a line is treated as a header exactly when its stripped content
starts with `"SSID BSSID"` (the condition of `isHeaderLine`); on such a
line, whatever the current state, the parser recomputes the boundaries to
`securityStartIndex` = first index of `"SECURITY"`, `ssidEndIndex` = first
index of `"SSID"` plus 4 (one past the SSID token, which is the first
`"SSID"` occurrence since the stripped line starts with it), and
`rssiStartIndex` = first index of `"RSSI"`, emitting no record; on every
non-header line the three boundaries are left untouched, so boundaries
from one header govern all following data lines until the next header. -/
theorem c2_header_boundaries (st : ParseState) (line : String) :
    (isHeaderLine line = true →
      ∀ sec ssidIdx rssiIdx : Nat,
        PyStr.find? line "SECURITY" = some sec →
        PyStr.find? line "SSID" = some ssidIdx →
        PyStr.find? line "RSSI" = some rssiIdx →
        parseStep st line = .ok ⟨st.results, some sec, ssidIdx + 4, rssiIdx⟩) ∧
    (isHeaderLine line = false →
      ∃ st2, parseStep st line = .ok st2 ∧
        st2.securityStartIndex = st.securityStartIndex ∧
        st2.ssidEndIndex = st.ssidEndIndex ∧
        st2.rssiStartIndex = st.rssiStartIndex) := by
  constructor
  · intro hH sec ssidIdx rssiIdx h1 h2 h3
    exact parseStep_header st line sec ssidIdx rssiIdx hH h1 h2 h3
  · intro hH
    obtain ⟨added, heq, -⟩ := parseStep_nonheader st line hH
    exact ⟨_, heq, rfl, rfl, rfl⟩

/-- C2 (witness): on the example header line, starting from the initial
state, the boundaries are set to 50 / 12 / 31 and no record is emitted. -/
theorem c2_header_boundaries_witness :
    parseStep initState specHeader = .ok ⟨[], some 50, 12, 31⟩ :=
  (c2_header_boundaries initState specHeader).1 (by decide) 50 8 31
    (by decide) (by decide) (by decide)

/-- C3 (counterexample): parsing can abort.  On the input consisting of the
single line `"SSID BSSID"`, the line is header-detected and
`line.index("SECURITY")` raises an uncaught `ValueError`, so `parse_output`
raises instead of returning normally — refuting the claim that parsing
never aborts on a malformed line. -/
theorem c3_counterexample :
    parse_output "SSID BSSID" = Except.error PyExc.valueError := by
  decide

/-- C3 (amended): the non-abort guarantee holds for data lines only.
First conjunct: if every header-detected line of the input contains the
`"SECURITY"` and `"RSSI"` tokens, the function returns normally.  Second
conjunct: a non-header line can never fail — it leaves the boundaries
untouched and appends at most one record, so a malformed data line (bad
signal integer, out-of-range indices) is silently skipped while every
other well-formed data line still yields its record.  Header-detected
lines missing `"SECURITY"` or `"RSSI"` abort the parse
(see the counterexample). -/
theorem c3_amended :
    (∀ output : String,
        (∀ line ∈ PyStr.splitNl output, isHeaderLine line = true →
          (PyStr.find? line "SECURITY").isSome ∧ (PyStr.find? line "RSSI").isSome) →
        ∃ recs, parse_output output = Except.ok recs) ∧
    (∀ (st : ParseState) (line : String), isHeaderLine line = false →
        ∃ added, parseStep st line =
            .ok ⟨st.results ++ added, st.securityStartIndex, st.ssidEndIndex,
              st.rssiStartIndex⟩ ∧
          added.length ≤ 1) := by
  constructor
  · intro output h
    obtain ⟨st2, h2⟩ := fold_no_abort (PyStr.splitNl output) initState h
    refine ⟨st2.results, ?_⟩
    unfold parse_output
    rw [h2]
    rfl
  · exact parseStep_nonheader

/-- C3 (witness): a scan text with a header, two well-formed data lines and
one data line whose signal field is not an integer parses without error. -/
theorem c3_amended_witness :
    ∃ recs, parse_output mixedExample = Except.ok recs :=
  c3_amended.1 mixedExample (by decide)

/-- C4: the quality scorer is exactly `r ↦ 2 * (r + 100)` on all integers,
a total function with no clamping: `quality(-55) = 90`,
`quality(-100) = 0`, and the out-of-band `quality(30) = 260` is returned
as-is rather than being clamped to the nominal 0-150 range. -/
theorem c4_quality_linear :
    (∀ r : Int, rssi_to_quality r = 2 * (r + 100)) ∧
      rssi_to_quality (-55) = 90 ∧ rssi_to_quality (-100) = 0 ∧
      rssi_to_quality 30 = 260 :=
  ⟨fun _ => rfl, by decide, by decide, by decide⟩

/-- C5: scan text in which no line is header-detected (this includes the
empty text, whose single split line `""` is not a header) parses to the
empty record list with no error. -/
theorem c5_no_header_empty (output : String)
    (h : ∀ line ∈ PyStr.splitNl output, isHeaderLine line = false) :
    parse_output output = Except.ok [] := by
  unfold parse_output
  rw [fold_no_header (PyStr.splitNl output) initState rfl h]
  rfl

/-- C5 (witness): the empty raw text returns the empty sequence. -/
theorem c5_no_header_empty_witness : parse_output "" = Except.ok [] :=
  c5_no_header_empty "" (by decide)

/-- C6: any non-header line containing the substring `"IBSS"` is excluded:
the loop body returns the state unchanged, producing no record for it,
whatever the current boundaries. -/
theorem c6_ibss_excluded (st : ParseState) (line : String)
    (hH : isHeaderLine line = false) (hI : PyStr.containsSub line "IBSS" = true) :
    parseStep st line = .ok st := by
  obtain ⟨res, ssi, sei, rsi⟩ := st
  cases ssi with
  | none => simp [parseStep, hH]
  | some sec => simp [parseStep, hH, hI]

/-- C6 (witness): an otherwise well-formed data line carrying `"IBSS"` in
its security column produces no record even with boundaries set. -/
theorem c6_ibss_excluded_witness :
    parseStep ⟨[], some 50, 12, 31⟩
        "AdHocNet     11:22:33:44:55:66 -40 1       Y  US  IBSS" =
      .ok ⟨[], some 50, 12, 31⟩ :=
  c6_ibss_excluded ⟨[], some 50, 12, 31⟩
    "AdHocNet     11:22:33:44:55:66 -40 1       Y  US  IBSS" (by decide) (by decide)

/-- C7 (counterexample): for an unregistered platform the lookup does NOT
fail with `UnsupportedPlatformError`: `get_scanner` has no raise at all and
simply falls off the end, returning `None` — e.g. on `"Linux"` the call
returns normally with no scanner. -/
theorem c7_counterexample :
    get_scanner "Linux" "" = Except.ok none ∧
      get_scanner "Linux" "" ≠ Except.error PyExc.unsupportedPlatformError := by
  constructor
  · decide
  · decide

/-- C7 (amended): for every operating-system identifier other than
`"Darwin"` the lookup returns `None` (no scanner object, hence no scan
command is built or invoked) rather than failing with
`UnsupportedPlatformError`; the failure only surfaces later when the
caller uses the `None` result. -/
theorem c7_amended (operating_system device : String)
    (h : operating_system ≠ "Darwin") :
    get_scanner operating_system device = Except.ok none := by
  have hb : (operating_system == "Darwin") = false := beq_eq_false_iff_ne.2 h
  simp [get_scanner, hb]

/-- C7 (witness): the amended statement at the concrete platform
identifier `"Windows"`. -/
theorem c7_amended_witness : get_scanner "Windows" "" = Except.ok none :=
  c7_amended "Windows" "" (by decide)

/-- C8: the aggregator maps each record to the key
`identifier ++ " " ++ hardwareAddress` with last write wins: looking up any
key in `aps_to_dict aps` returns the quality of the LAST record in `aps`
whose composite key equals it (the first match in the reversed list), and
`none` when no record has that key. -/
theorem c8_last_write_wins (aps : List AccessPoint) (k : String) :
    dictFind (aps_to_dict aps) k =
      (aps.reverse.find? (fun ap => apKey ap == k)).map AccessPoint.quality := by
  unfold aps_to_dict
  rw [foldl_dict_lookup aps [] k]
  cases aps.reverse.find? (fun ap => apKey ap == k) with
  | none => rfl
  | some a => rfl

/-- C9: `ensure_str` on any byte sequence returns normally with a string:
the UTF-8 decode uses `errors='ignore'`, which drops undecodable byte
sequences instead of failing, so no `UnicodeDecodeError` ever occurs (and
the UTF-16 fallback branch, triggered only by that exception, is therefore
vacuous).  The concrete cases show an undecodable byte (0xC8 with no
continuation byte) being dropped, and plain ASCII passing through. -/
theorem c9_ensure_str_total :
    (∀ bs : List Nat, ∃ s : String, ensure_str bs = Except.ok s) ∧
      ensure_str [104, 200, 105] = Except.ok "hi" ∧
      ensure_str [72, 101, 108, 108, 111] = Except.ok "Hello" :=
  ⟨fun bs => ⟨utf8DecodeIgnore bs, rfl⟩, by decide, by decide⟩

/-- C10: the composite key is not injective — identifiers may contain the
separator.  The records (ssid `"a b"`, bssid `"c"`) and (ssid `"a"`,
bssid `"b c"`) have different identifier/address pairs but the same key
`"a b c"`, and after aggregating both the stored quality is the later
record's `20`, silently overwriting the earlier non-duplicate record. -/
theorem c10_key_collision :
    apKey ⟨"a b", "c", 10, "x"⟩ = apKey ⟨"a", "b c", 20, "x"⟩ ∧
      ("a b" : String) ≠ "a" ∧
      dictFind (aps_to_dict [⟨"a b", "c", 10, "x"⟩, ⟨"a", "b c", 20, "x"⟩]) "a b c" =
        some 20 := by
  constructor
  · decide
  constructor
  · decide
  · decide

end WifiScan
